import Mathlib

/-!
Shallow embedding of the ct-visualizer core (`app/helpers/dcm_manager.py`,
`app/model/model.py`, `app/controllers/main_controller.py`) and proofs about it.

Slices and volumes are numpy arrays; they are embedded as (rectangular) nested
lists of rationals.  Fallible Python code is embedded as `Except` over the
exceptions the interpreter actually raises.
-/

set_option autoImplicit false

namespace CTVis

/-! ### Python / numpy primitives -/

/-- Python `str(x)` applied to an optional DICOM text value:
`str(None)` is the four-character string `"None"`, otherwise the text itself. -/
def pyStr : Option String → String
  | none => "None"
  | some s => s

/-- Python `str.upper()` (the inputs at hand are ASCII). -/
def pyUpper (s : String) : String :=
  String.mk (s.data.map Char.toUpper)

/-- Python `str.capitalize()`: first character upper-cased, the rest lower-cased. -/
def pyCapitalize (s : String) : String :=
  match s.data with
  | [] => ""
  | c :: cs => String.mk (Char.toUpper c :: cs.map Char.toLower)

/-- Python `int(x)` on a finite numeric value: truncation toward zero. -/
def pyInt (q : ℚ) : ℤ :=
  if q < 0 then ⌈q⌉ else ⌊q⌋

/-- Resolution of the Python subscript `-z` on an axis of length `n`
(used with `0 ≤ z < n`): `-0` is just `0`, while a genuinely negative
index `-z` counts from the end, i.e. denotes `n - z`. -/
def pyNegIdx (n z : ℕ) : ℕ :=
  if z = 0 then 0 else n - z

/-- Computes `⌊q * 100 + 1/2⌋` on the numerator/denominator representation
(the denominator of a `Rat` is positive, so floor division by `2 * den` is
exact). -/
def round100 (q : ℚ) : ℤ :=
  Int.fdiv (200 * q.num + q.den) (2 * (q.den : ℤ))

/-- Decimal rendering of a nonnegative rational with two fractional digits,
modelling the Python format `f"{x:.2f}"`.  (The theorems below only evaluate it
at values exactly representable with two decimals, where the float rounding and
tie-breaking of the original cannot matter.) -/
def fmt2 (q : ℚ) : String :=
  toString (round100 q / 100) ++ "." ++
    (if round100 q % 100 < 10 then "0" else "") ++ toString (round100 q % 100)

/-- Stand-in for Python `str` on a numeric metadata value (as in
`f"{thickness}mm"`); no theorem below inspects the digits it produces. -/
def pyNumStr (q : ℚ) : String :=
  toString q.num ++ (if q.den = 1 then "" else "/" ++ toString q.den)

/-- A 2-D numpy array (e.g. a pydicom `pixel_array`): a list of rows. -/
abbrev Mat2 := List (List ℚ)

/-- A 3-D numpy array, indexed `m[x][y][z]`. -/
abbrev Mat3 := List (List (List ℚ))

/-- The numpy shape of a 2-D array: (number of rows, length of the first row). -/
def shape2 (m : Mat2) : ℕ × ℕ :=
  (m.length, (m.head?.map List.length).getD 0)

/-- Rectangularity of a 2-D array, with shape `(w, h)`. -/
def rect2 (m : Mat2) (w h : ℕ) : Prop :=
  m.length = w ∧ ∀ r ∈ m, r.length = h

/-- Rectangularity of a 3-D array, with shape `(nx, ny, nz)`. -/
def rect3 (m : Mat3) (nx ny nz : ℕ) : Prop :=
  m.length = nx ∧ ∀ p ∈ m, p.length = ny ∧ ∀ c ∈ p, c.length = nz

/-- Entry `m[x][y][z]` of a 3-D array (with junk default out of range). -/
def idx3 (m : Mat3) (x y z : ℕ) : ℚ :=
  ((m.getD x []).getD y []).getD z 0

/-- Entry `s[i][j]` of a 2-D array (with junk default out of range). -/
def idx2 (s : Mat2) (i j : ℕ) : ℚ :=
  (s.getD i []).getD j 0

/-- Embeds `np.zeros([x, y, z])`. -/
def zeros3 (x y z : ℕ) : Mat3 :=
  List.replicate x (List.replicate y (List.replicate z 0))

/-- One counter-clockwise quarter turn of a 2-D array:
the result has shape `(C, R)` and entry `(i, j)` equal to `m[j][C - 1 - i]`,
where `(R, C)` is the shape of `m`. -/
def rot90_once (m : Mat2) : Mat2 :=
  (List.range (shape2 m).2).map
    (fun i => m.map (fun row => row.getD ((shape2 m).2 - 1 - i) 0))

/-- Embeds `np.rot90(m, k)`: numpy reduces `k` modulo 4 (Python `%`, so the result is
in `[0, 4)` also for negative `k`) and applies that many quarter turns. -/
def np_rot90 (m : Mat2) (k : ℤ) : Mat2 :=
  rot90_once^[(k % 4).toNat] m

/-- numpy broadcast compatibility of a 2-D source of shape `src` against an
assignment target of shape `tgt`: each source axis must match or have size 1. -/
def bcast_ok (src tgt : ℕ × ℕ) : Prop :=
  (src.1 = tgt.1 ∨ src.1 = 1) ∧ (src.2 = tgt.2 ∨ src.2 = 1)

instance (src tgt : ℕ × ℕ) : Decidable (bcast_ok src tgt) := by
  unfold bcast_ok
  exact inferInstance

/-- Value a broadcast 2-D source contributes at target position `(x, y)`:
an axis of size 1 repeats its single entry. -/
def bcast_get (src : Mat2) (x y : ℕ) : ℚ :=
  (src.getD (if (shape2 src).1 = 1 then 0 else x) []).getD
    (if (shape2 src).2 = 1 then 0 else y) 0

/-- Inner part of the assignment `m[:, :, idx] = src`: rewrite one `(y, z)`
plane, `y` being the running row index. -/
def set_z_plane (src : Mat2) (idx x : ℕ) : ℕ → List (List ℚ) → List (List ℚ)
  | _, [] => []
  | y, col :: cols => col.set idx (bcast_get src x y) :: set_z_plane src idx x (y + 1) cols

/-- Outer part of the assignment `m[:, :, idx] = src`, `x` being the running
plane index. -/
def set_z_go (src : Mat2) (idx : ℕ) : ℕ → Mat3 → Mat3
  | _, [] => []
  | x, plane :: planes => set_z_plane src idx x 0 plane :: set_z_go src idx (x + 1) planes

/-- The (broadcasting) numpy assignment `m[:, :, idx] = src`. -/
def set_z (m : Mat3) (idx : ℕ) (src : Mat2) : Mat3 :=
  set_z_go src idx 0 m

/-! ### `dcm_manager.py` -/

/-- The DICOM fields of one slice dataset that the program reads.  Text fields
are optional: `dataset.get(tag)` yields `None` when the tag is absent.
`PixelSpacing` is the `(row_spacing, col_spacing)` pair and is taken to be
present (its consumers unpack it unconditionally). -/
structure Dataset where
  pixel_array : Mat2
  SliceThickness : Option ℚ
  PixelSpacing : ℚ × ℚ
  PatientID : Option String
  PatientName : Option String
  PatientAge : Option String
  PatientSex : Option String
  StudyID : Option String
  Date : Option String
  BodyPartExamined : Option String
deriving Repr

/-- A slice dataset carrying only pixel data, every optional tag absent. -/
def mkDS (m : Mat2) : Dataset :=
  { pixel_array := m, SliceThickness := none, PixelSpacing := (0, 0),
    PatientID := none, PatientName := none, PatientAge := none,
    PatientSex := none, StudyID := none, Date := none, BodyPartExamined := none }

instance : Inhabited Dataset := ⟨mkDS []⟩

/-- The Python exceptions the embedded code can actually raise. -/
inductive PyErr where
  | indexError
  | valueError
deriving DecidableEq, Repr

/-- The subscript `dcm_files[z_size // 2]` of `get_ct_model_as_matrix` (and the
identical `ct_slices[z_size // 2]` of `__model_preset`); for a non-empty list
`z_size // 2` is always in range. -/
def middle_slice (dcm_files : List Dataset) : Dataset :=
  dcm_files.getD (dcm_files.length / 2) default

/-- The insertion loop of `get_ct_model_as_matrix`: for `z = 0, 1, ...` perform
`matrix_3d[:, :, -z] = f(ct_s.pixel_array)` where `f` is the per-slice
transform chosen by the `rot_k % 4` test; a source whose shape numpy cannot
broadcast onto the `(x_size, y_size)` cross-section raises `ValueError`. -/
def insert_loop (f : Mat2 → Mat2) (x_size y_size z_size : ℕ) :
    List Dataset → ℕ → Mat3 → Except PyErr Mat3
  | [], _, m => .ok m
  | ct_s :: rest, z, m =>
    if bcast_ok (shape2 (f ct_s.pixel_array)) (x_size, y_size) then
      insert_loop f x_size y_size z_size rest (z + 1)
        (set_z m (pyNegIdx z_size z) (f ct_s.pixel_array))
    else
      .error .valueError

/-- Embeds `get_ct_model_as_matrix(dcm_files, rot_k)` (dcm_manager.py, lines 36-52):
take the in-plane sizes from the middle slice, allocate
`np.zeros([x_size, y_size, z_size])`, then insert each slice at
`matrix_3d[:, :, -z]`, rotating every slice by `np.rot90(·, k=rot_k)` when
`rot_k % 4 != 0`.  On an empty list the subscript `dcm_files[z_size // 2]`
raises `IndexError`. -/
def get_ct_model_as_matrix (dcm_files : List Dataset) (rot_k : ℤ) : Except PyErr Mat3 :=
  match dcm_files with
  | [] => .error .indexError
  | _ :: _ =>
    let z_size := dcm_files.length
    let x_size := (shape2 (middle_slice dcm_files).pixel_array).1
    let y_size := (shape2 (middle_slice dcm_files).pixel_array).2
    let matrix_3d := zeros3 x_size y_size z_size
    if rot_k % 4 ≠ 0 then
      insert_loop (fun a => np_rot90 a rot_k) x_size y_size z_size dcm_files 0 matrix_3d
    else
      insert_loop (fun a => a) x_size y_size z_size dcm_files 0 matrix_3d

/-- Embeds `get_ct_thickness`: the `SliceThickness` element (absent tags give `None`). -/
def get_ct_thickness (dcm_dataset : Dataset) : Option ℚ :=
  dcm_dataset.SliceThickness

/-- Embeds `get_ct_pixel_spacing`: the `(row_spacing, col_spacing)` pair. -/
def get_ct_pixel_spacing (dcm_dataset : Dataset) : ℚ × ℚ :=
  dcm_dataset.PixelSpacing

/-- The substitution loop `if not value: ... = "unknown"` applied to an entry
that was already passed through `str(...)`: of such strings exactly the empty
one is falsy. -/
def fill_unknown (v : String) : String :=
  if v = "" then "unknown" else v

/-- The same falsiness test on the one entry stored raw (`PatientID`):
both `None` and the empty string are falsy. -/
def fill_unknown_raw : Option String → String
  | none => "unknown"
  | some s => fill_unknown s

/-- Embeds `get_patient_data` (dcm_manager.py, lines 70-89): the four patient elements,
`Name` upper-cased and `Sex` capitalized via `str(...)`, then the
`"unknown"` substitution loop over the resulting dict. -/
def get_patient_data (dcm_dataset : Dataset) : List (String × String) :=
  [("Patient ID", fill_unknown_raw dcm_dataset.PatientID),
   ("Name", fill_unknown (pyUpper (pyStr dcm_dataset.PatientName))),
   ("Age", fill_unknown (pyStr dcm_dataset.PatientAge)),
   ("Sex", fill_unknown (pyCapitalize (pyStr dcm_dataset.PatientSex)))]

/-- Embeds `get_examination_data` (dcm_manager.py, lines 92-109). -/
def get_examination_data (dcm_dataset : Dataset) : List (String × String) :=
  [("Study ID", fill_unknown (pyStr dcm_dataset.StudyID)),
   ("Date", fill_unknown (pyStr dcm_dataset.Date)),
   ("Body Part Examined", fill_unknown (pyCapitalize (pyStr dcm_dataset.BodyPartExamined)))]

/-! ### `enums.py` -/

/-- Embeds `enums.Plain`: the three orthogonal plane identifiers. -/
inductive Plain where
  | XY
  | XZ
  | YZ
deriving DecidableEq, Repr

/-! ### Insertion-ordered dictionaries (Python `dict`) -/

/-- Python `d[k] = v` on an insertion-ordered dict represented as an
association list: overwrite in place when the key is present, else append at
the end. -/
def dict_set (k v : String) : List (String × String) → List (String × String)
  | [] => [(k, v)]
  | e :: rest => if e.1 = k then (k, v) :: rest else e :: dict_set k v rest

/-- Lookup in an insertion-ordered dict. -/
def dict_get (k : String) : List (String × String) → Option String
  | [] => none
  | e :: rest => if e.1 = k then some e.2 else dict_get k rest

/-- The merge loop `for k, v in metadata.items(): d[k] = v` shared by
`ProjectionModel.update_img_metadata` and `ProjectionModel.update_roi_metadata`
(model.py, lines 200-204 and 214-218). -/
def dict_update (d p : List (String × String)) : List (String × String) :=
  p.foldl (fun acc e => dict_set e.1 e.2 acc) d

/-! ### `model.py`: `ProjectionModel` -/

/-- The state of `ProjectionModel` (model.py, lines 99-234). -/
structure ProjectionModel where
  plain : Option Plain
  anatomical_plane : Option String
  projection_orientation : List (String × String)
  slices_count : ℕ
  current_slice_num : ℕ
  current_slice_image : Option Mat2
  slices_width : ℕ
  slices_height : ℕ
  slice_thickness : ℚ
  col_spacing : ℚ
  row_spacing : ℚ
  image_metadata : List (String × String)
  roi_metadata : List (String × String)
  prev_roi_pix_size : ℕ × ℕ
deriving Repr

/-- Embeds `ProjectionModel.__init__`: counts and spacings zero, empty metadata dicts,
and `prev_roi_pix_size = 0, 0`. -/
def ProjectionModel.init (plain : Option Plain) (anatomical_plane : Option String) :
    ProjectionModel :=
  { plain := plain
    anatomical_plane := anatomical_plane
    projection_orientation := []
    slices_count := 0
    current_slice_num := 0
    current_slice_image := none
    slices_width := 0
    slices_height := 0
    slice_thickness := 0
    col_spacing := 0
    row_spacing := 0
    image_metadata := []
    roi_metadata := []
    prev_roi_pix_size := (0, 0) }

/-- Embeds `ProjectionModel.set_shape`. -/
def ProjectionModel.set_shape (pm : ProjectionModel) (width height depth : ℕ) :
    ProjectionModel :=
  { pm with slices_width := width, slices_height := height, slices_count := depth }

/-- Embeds `ProjectionModel.set_spacings`. -/
def ProjectionModel.set_spacings (pm : ProjectionModel) (c r t : ℚ) : ProjectionModel :=
  { pm with col_spacing := c, row_spacing := r, slice_thickness := t }

/-- Embeds `ProjectionModel.get_spacings`: the `(col_spacing, row_spacing)` pair. -/
def ProjectionModel.get_spacings (pm : ProjectionModel) : ℚ × ℚ :=
  (pm.col_spacing, pm.row_spacing)

/-- Embeds `ProjectionModel.get_img_size`: `(slices_width, slices_height)`. -/
def ProjectionModel.get_img_size (pm : ProjectionModel) : ℕ × ℕ :=
  (pm.slices_width, pm.slices_height)

/-- Embeds `ProjectionModel.set_current_slice`. -/
def ProjectionModel.set_current_slice (pm : ProjectionModel) (img : Mat2) (n : ℕ) :
    ProjectionModel :=
  { pm with current_slice_image := some img, current_slice_num := n }

/-- Embeds `ProjectionModel.set_img_metadata`: wholesale replacement. -/
def ProjectionModel.set_img_metadata (pm : ProjectionModel)
    (img_metadata : List (String × String)) : ProjectionModel :=
  { pm with image_metadata := img_metadata }

/-- Embeds `ProjectionModel.update_img_metadata`: the dict-merge loop; the Python
method returns the resulting full map, here read back as `.image_metadata`. -/
def ProjectionModel.update_img_metadata (pm : ProjectionModel)
    (metadata : List (String × String)) : ProjectionModel :=
  { pm with image_metadata := dict_update pm.image_metadata metadata }

/-- Embeds `ProjectionModel.set_roi_metadata`: wholesale replacement. -/
def ProjectionModel.set_roi_metadata (pm : ProjectionModel)
    (roi_metadata : List (String × String)) : ProjectionModel :=
  { pm with roi_metadata := roi_metadata }

/-- Embeds `ProjectionModel.update_roi_metadata`: the dict-merge loop over the ROI map. -/
def ProjectionModel.update_roi_metadata (pm : ProjectionModel)
    (data : List (String × String)) : ProjectionModel :=
  { pm with roi_metadata := dict_update pm.roi_metadata data }

/-- Embeds `ProjectionModel.set_anatomical_plane`. -/
def ProjectionModel.set_anatomical_plane (pm : ProjectionModel) (label : String) :
    ProjectionModel :=
  { pm with anatomical_plane := some label }

/-- Embeds `ProjectionModel.set_projection_orientation`. -/
def ProjectionModel.set_projection_orientation (pm : ProjectionModel)
    (orientation : List (String × String)) : ProjectionModel :=
  { pm with projection_orientation := orientation }

/-! ### `main_controller.py` -/

/-- Embeds `MainController.__orthogonal_slicing` (main_controller.py, lines 260-276) on
the model matrix: `matrix_3d[:, :, n]` for `Plain.XY`, `matrix_3d[:, n, :]` for
`Plain.XZ`, `matrix_3d[n, :, :]` for `Plain.YZ`.  (The `AssertionError` branch
is unreachable over this enumeration.) -/
def orthogonal_slicing (matrix_3d : Mat3) (n : ℕ) : Plain → Mat2
  | .XY => matrix_3d.map (fun plane => plane.map (fun col => col.getD n 0))
  | .XZ => matrix_3d.map (fun plane => plane.getD n [])
  | .YZ => matrix_3d.getD n []

/-- The windowing computation of `histogram_changed_handle`
(main_controller.py, lines 107-109): `width = int(max_val - min_val)`,
`center = int(min_val + width / 2)`.  Total for finite numeric input. -/
def compute_window (min_val max_val : ℚ) : ℤ × ℤ :=
  let width := pyInt (max_val - min_val)
  let center := pyInt (min_val + (width : ℚ) / 2)
  (width, center)

/-- The body of `MainController.roi_changed_handle` past the visibility guard
(main_controller.py, lines 133-153), acting on one projection model.
`roi_matrix` is the sub-array `roi.getArrayRegion(...)` extracted by the
widget; the mean and standard-deviation strings, floating-point renderings of
`np.mean` / `np.std`, are passed in as `mean_s` and `std_s` (no theorem below
depends on their digits). -/
def roi_changed (pm : ProjectionModel) (roi_matrix : Mat2) (mean_s std_s : String) :
    ProjectionModel :=
  let pixel_width := (shape2 roi_matrix).1
  let pixel_height := (shape2 roi_matrix).2
  let col_spacing := pm.get_spacings.1
  let row_spacing := pm.get_spacings.2
  let prev_roi_size := pm.prev_roi_pix_size
  let pm1 :=
    if ¬((pixel_width, pixel_height) = prev_roi_size) then
      let roi_mm_area := (pixel_width : ℚ) * col_spacing * (pixel_height : ℚ) * row_spacing
      ({ pm with prev_roi_pix_size := (pixel_width, pixel_height) }).update_roi_metadata
        [("Area", fmt2 roi_mm_area ++ " mm2")]
    else pm
  pm1.update_roi_metadata [("Mean", mean_s), ("Std Dev", std_s)]

/-- The per-projection part of `MainController.__model_preset`
(main_controller.py, lines 162-221), together with the `set_shape` call made
from `Model.set_model_matrix` (model.py, lines 54-60) during the same load:
shape, spacings, anatomical label, orientation record, and the display/ROI
metadata defaults.  `width`/`height`/`depth` and `c`/`r`/`t` arrive already
permuted per plane, exactly as at the three call sites; the thickness is the
numeric value of the middle slice's `SliceThickness`. -/
def load_preset (pm : ProjectionModel) (width height depth : ℕ) (c r t : ℚ)
    (label : String) (orientation : List (String × String)) : ProjectionModel :=
  let pm := pm.set_shape width height depth
  let pm := pm.set_spacings c r t
  let pm := pm.set_anatomical_plane label
  let pm := pm.set_projection_orientation orientation
  let pm := pm.set_img_metadata
    [("Plane", label),
     ("Slice", "unknown"),
     ("Window Width", "4000"),
     ("Window Level", "2000"),
     ("Size", toString pm.get_img_size.1 ++ "x" ++ toString pm.get_img_size.2),
     ("Slice Thickness", pyNumStr pm.slice_thickness ++ "mm")]
  pm.set_roi_metadata [("Area", ""), ("Mean", ""), ("Std Dev", "")]

/-- The per-series values `__model_preset` extracts before distributing them to
the three projections (main_controller.py, lines 165-169 and 201-204): slice
thickness, pixel spacing and the patient/examination maps, all read from
`ct_slices[z_size // 2]`. -/
def model_preset_series_data (ct_slices : List Dataset) :
    Option ℚ × (ℚ × ℚ) × List (String × String) × List (String × String) :=
  let metadata_slice := middle_slice ct_slices
  (get_ct_thickness metadata_slice, get_ct_pixel_spacing metadata_slice,
   get_patient_data metadata_slice, get_examination_data metadata_slice)

/-- The per-slice transform `get_ct_model_as_matrix` applies before insertion:
`np.rot90(·, rot_k)` when `rot_k % 4 != 0`, else the identity. -/
def eff_transform (rot_k : ℤ) : Mat2 → Mat2 :=
  fun arr => if rot_k % 4 ≠ 0 then np_rot90 arr rot_k else arr

/-- The array `get_ct_model_as_matrix` actually inserts for a slice `d`. -/
def slice_eff (rot_k : ℤ) (d : Dataset) : Mat2 :=
  eff_transform rot_k d.pixel_array

/-! ### Generic list and dictionary lemmas -/

theorem getD_map_of_lt {α β : Type} (f : α → β) (l : List α) (i : ℕ) (h : i < l.length)
    (d : β) (d' : α) : (l.map f).getD i d = f (l.getD i d') := by
  rw [List.getD_eq_getElem?_getD, List.getD_eq_getElem?_getD, List.getElem?_map,
    List.getElem?_eq_getElem h]
  rfl

theorem getD_mem_of_lt {α : Type} (l : List α) (i : ℕ) (h : i < l.length) (d : α) :
    l.getD i d ∈ l := by
  rw [List.getD_eq_getElem?_getD, List.getElem?_eq_getElem h]
  exact List.getElem_mem h

theorem dict_get_set_self (k v : String) (d : List (String × String)) :
    dict_get k (dict_set k v d) = some v := by
  induction d with
  | nil => simp [dict_set, dict_get]
  | cons e rest ih =>
    by_cases he : e.1 = k
    · simp [dict_set, dict_get, he]
    · simp [dict_set, dict_get, he, ih]

theorem dict_get_set_ne (k k' v : String) (h : k' ≠ k) (d : List (String × String)) :
    dict_get k' (dict_set k v d) = dict_get k' d := by
  induction d with
  | nil => simp [dict_set, dict_get, Ne.symm h]
  | cons e rest ih =>
    by_cases he : e.1 = k
    · have he' : ¬(e.1 = k') := by rw [he]; exact Ne.symm h
      simp [dict_set, dict_get, he, Ne.symm h, he']
    · by_cases he' : e.1 = k'
      · simp [dict_set, dict_get, he, he', h]
      · simp [dict_set, dict_get, he, he', h, ih]

/-! ### Claim theorems -/

/-- C1: the claim says the `i`-th input slice lands at Z index `N-1-i` (first
slice at the highest index).  The code writes to `matrix_3d[:, :, -z]`, and
`-0` is `0`: for a two-slice stack (1×1 slices with values 1 and 2, rotation
0) slice 0 lands at Z index 0 and slice 1 at Z index 1 — the input order is
not reversed at all, contradicting the claim, which demands `[[[2, 1]]]`. -/
theorem C1_first_slice_lands_at_z_zero :
    get_ct_model_as_matrix [mkDS [[1]], mkDS [[2]]] 0 = .ok [[[1, 2]]] := by
  rfl

/-- C5: the claim says every missing patient/examination field is substituted
by the literal `"unknown"` (after normalization).  In the code the fields are
first passed through `str(...)`, so an absent tag (`None`) becomes the truthy
string `"None"` and the `if not value` substitution never fires: on a dataset
with every optional tag absent, only the raw `Patient ID` entry becomes
`"unknown"`, while `Name` is rendered `"NONE"` and the other fields `"None"`. -/
theorem C5_missing_fields_render_as_None :
    get_patient_data (mkDS []) =
      [("Patient ID", "unknown"), ("Name", "NONE"), ("Age", "None"), ("Sex", "None")] ∧
    get_examination_data (mkDS []) =
      [("Study ID", "None"), ("Date", "None"), ("Body Part Examined", "None")] := by
  constructor <;> decide

/-- C7: `compute_window` is total on rationals and returns the
integer-truncated `max_level - min_level` as width and the integer-truncated
`min_level + width/2` as center; in particular `compute_window 0 4000 =
(4000, 2000)` and `compute_window 1000 3000 = (2000, 2000)`. -/
theorem C7_compute_window_spec :
    (∀ min_val max_val : ℚ, compute_window min_val max_val =
      (pyInt (max_val - min_val), pyInt (min_val + (pyInt (max_val - min_val) : ℚ) / 2))) ∧
    compute_window 0 4000 = (4000, 2000) ∧ compute_window 1000 3000 = (2000, 2000) := by
  refine ⟨fun _ _ => rfl, ?_, ?_⟩ <;>
    · rw [compute_window]
      norm_num [pyInt]

theorem np_rot90_mod (m : Mat2) (k : ℤ) : np_rot90 m (k % 4) = np_rot90 m k := by
  unfold np_rot90
  rw [Int.emod_emod_of_dvd _ (dvd_refl 4)]

/-- C6: for every non-empty slice stack and every integer `rot_k`,
`get_ct_model_as_matrix` gives the same result for `rot_k` and `rot_k % 4`
(the `rot_k % 4 != 0` test and numpy's internal reduction of `k` modulo 4 make
rotation meaningful only mod 4); in particular multiples of 4 behave like
rotation 0. -/
theorem C6_rotation_only_mod_four (dcm_files : List Dataset) (rot_k : ℤ)
    (h : dcm_files ≠ []) :
    get_ct_model_as_matrix dcm_files rot_k = get_ct_model_as_matrix dcm_files (rot_k % 4) ∧
    (4 ∣ rot_k →
      get_ct_model_as_matrix dcm_files rot_k = get_ct_model_as_matrix dcm_files 0) := by
  have key : ∀ r : ℤ,
      get_ct_model_as_matrix dcm_files r = get_ct_model_as_matrix dcm_files (r % 4) := by
    intro r
    cases dcm_files with
    | nil => rfl
    | cons a l =>
      simp only [get_ct_model_as_matrix, Int.emod_emod_of_dvd _ (dvd_refl 4), np_rot90_mod]
  refine ⟨key rot_k, fun hdvd => ?_⟩
  have h0 : rot_k % 4 = 0 := Int.emod_eq_zero_of_dvd hdvd
  rw [key rot_k, h0]

theorem C6_rotation_only_mod_four_witness :
    get_ct_model_as_matrix [mkDS [[1]]] 7 = get_ct_model_as_matrix [mkDS [[1]]] 3 ∧
    get_ct_model_as_matrix [mkDS [[1]]] 8 = get_ct_model_as_matrix [mkDS [[1]]] 0 := by
  constructor
  · have h := (C6_rotation_only_mod_four [mkDS [[1]]] 7 (by simp)).1
    norm_num at h
    exact h
  · exact (C6_rotation_only_mod_four [mkDS [[1]]] 8 (by simp)).2 ⟨2, rfl⟩

/-- C3: consecutive ROI-stats computations on a projection: when the new
sub-array's pixel footprint equals the recorded `prev_roi_pix_size`, no area
is computed or written (the `Area` entry of the ROI metadata is untouched and
the footprint is kept); when it differs, the footprint is recorded and
`width * col_spacing * height * row_spacing` is written as the `Area` entry
(rendered with two decimals and the `mm2` unit). -/
theorem C3_roi_area_memoization (pm : ProjectionModel) (roi_matrix : Mat2)
    (mean_s std_s : String) :
    (shape2 roi_matrix = pm.prev_roi_pix_size →
      (roi_changed pm roi_matrix mean_s std_s).prev_roi_pix_size = pm.prev_roi_pix_size ∧
      dict_get "Area" (roi_changed pm roi_matrix mean_s std_s).roi_metadata
        = dict_get "Area" pm.roi_metadata) ∧
    (shape2 roi_matrix ≠ pm.prev_roi_pix_size →
      (roi_changed pm roi_matrix mean_s std_s).prev_roi_pix_size = shape2 roi_matrix ∧
      dict_get "Area" (roi_changed pm roi_matrix mean_s std_s).roi_metadata
        = some (fmt2 (((shape2 roi_matrix).1 : ℚ) * pm.col_spacing *
            ((shape2 roi_matrix).2 : ℚ) * pm.row_spacing) ++ " mm2")) := by
  have hpair : ((shape2 roi_matrix).1, (shape2 roi_matrix).2) = shape2 roi_matrix :=
    Prod.mk.eta
  constructor
  · intro hfp
    have hc : ¬¬(((shape2 roi_matrix).1, (shape2 roi_matrix).2) = pm.prev_roi_pix_size) := by
      rw [hpair]
      exact not_not_intro hfp
    simp only [roi_changed]
    rw [if_neg hc]
    refine ⟨rfl, ?_⟩
    show dict_get "Area"
        (dict_set "Std Dev" std_s (dict_set "Mean" mean_s pm.roi_metadata))
      = dict_get "Area" pm.roi_metadata
    rw [dict_get_set_ne _ _ _ (by decide), dict_get_set_ne _ _ _ (by decide)]
  · intro hfp
    have hc : ¬(((shape2 roi_matrix).1, (shape2 roi_matrix).2) = pm.prev_roi_pix_size) := by
      rw [hpair]
      exact hfp
    simp only [roi_changed]
    rw [if_pos hc]
    refine ⟨hpair, ?_⟩
    show dict_get "Area"
        (dict_set "Std Dev" std_s (dict_set "Mean" mean_s (dict_set "Area" _ pm.roi_metadata)))
      = _
    rw [dict_get_set_ne _ _ _ (by decide), dict_get_set_ne _ _ _ (by decide),
      dict_get_set_self]
    rfl

theorem C3_roi_area_memoization_witness :
    (roi_changed ((ProjectionModel.init none none).set_spacings (1/2) (1/2) 0)
      (List.replicate 10 (List.replicate 10 0)) "" "").prev_roi_pix_size = (10, 10) ∧
    dict_get "Area" (roi_changed ((ProjectionModel.init none none).set_spacings (1/2) (1/2) 0)
      (List.replicate 10 (List.replicate 10 0)) "" "").roi_metadata = some "25.00 mm2" := by
  have h := (C3_roi_area_memoization
    ((ProjectionModel.init none none).set_spacings (1/2) (1/2) 0)
    (List.replicate 10 (List.replicate 10 0)) "" "").2 (by decide)
  refine ⟨h.1.trans (by decide), h.2.trans ?_⟩
  have hs : shape2 (List.replicate 10 (List.replicate 10 (0 : ℚ))) = (10, 10) := by decide
  have harea : ((shape2 (List.replicate 10 (List.replicate 10 (0 : ℚ)))).1 : ℚ) *
      ((ProjectionModel.init none none).set_spacings (1/2) (1/2) 0).col_spacing *
      ((shape2 (List.replicate 10 (List.replicate 10 (0 : ℚ)))).2 : ℚ) *
      ((ProjectionModel.init none none).set_spacings (1/2) (1/2) 0).row_spacing = 25 := by
    rw [hs]
    show ((10 : ℕ) : ℚ) * (1/2) * ((10 : ℕ) : ℚ) * (1/2) = 25
    norm_num
  rw [harea]
  decide

/-- C4: on a `(Nx, Ny, Nz)` volume, Plane A (`Plain.XY`) fixes the Z axis at an
in-range `n` and yields an `(Nx, Ny)` cross-section whose `(x, y)` entry is
`m[x][y][n]`; Plane B (`Plain.XZ`) fixes the Y axis and yields `(Nx, Nz)`;
Plane C (`Plain.YZ`) fixes the X axis and yields `(Ny, Nz)`. -/
theorem C4_orthogonal_slicing_shapes (m : Mat3) (nx ny nz : ℕ) (h : rect3 m nx ny nz) :
    (∀ n, n < nz → rect2 (orthogonal_slicing m n Plain.XY) nx ny ∧
      ∀ x y, x < nx → y < ny →
        idx2 (orthogonal_slicing m n Plain.XY) x y = idx3 m x y n) ∧
    (∀ n, n < ny → rect2 (orthogonal_slicing m n Plain.XZ) nx nz ∧
      ∀ x z, x < nx → z < nz →
        idx2 (orthogonal_slicing m n Plain.XZ) x z = idx3 m x n z) ∧
    (∀ n, n < nx → rect2 (orthogonal_slicing m n Plain.YZ) ny nz ∧
      ∀ y z, y < ny → z < nz →
        idx2 (orthogonal_slicing m n Plain.YZ) y z = idx3 m n y z) := by
  obtain ⟨hlen, hmem⟩ := h
  refine ⟨fun n hn => ⟨⟨?_, ?_⟩, ?_⟩, fun n hn => ⟨⟨?_, ?_⟩, ?_⟩, fun n hn => ⟨?_, ?_⟩⟩
  · simp [orthogonal_slicing, hlen]
  · intro r hr
    obtain ⟨plane, hp, rfl⟩ := List.mem_map.mp hr
    simp [(hmem plane hp).1]
  · intro x y hx hy
    have hx' : x < m.length := by rw [hlen]; exact hx
    have hy' : y < (m.getD x []).length := by
      rw [(hmem _ (getD_mem_of_lt m x hx' [])).1]
      exact hy
    simp only [idx2, idx3, orthogonal_slicing]
    rw [getD_map_of_lt _ m x hx' [] [], getD_map_of_lt _ (m.getD x []) y hy' 0 []]
  · simp [orthogonal_slicing, hlen]
  · intro r hr
    obtain ⟨plane, hp, rfl⟩ := List.mem_map.mp hr
    have hn' : n < plane.length := by rw [(hmem plane hp).1]; exact hn
    exact (hmem plane hp).2 _ (getD_mem_of_lt plane n hn' [])
  · intro x z hx hz
    have hx' : x < m.length := by rw [hlen]; exact hx
    simp only [idx2, idx3, orthogonal_slicing]
    rw [getD_map_of_lt _ m x hx' [] []]
  · constructor
    · have hn' : n < m.length := by rw [hlen]; exact hn
      exact (hmem _ (getD_mem_of_lt m n hn' [])).1
    · intro r hr
      have hn' : n < m.length := by rw [hlen]; exact hn
      exact (hmem _ (getD_mem_of_lt m n hn' [])).2 r hr
  · intro y z hy hz
    rfl

theorem C4_orthogonal_slicing_shapes_witness :
    rect2 (orthogonal_slicing [[[1, 2], [3, 4]], [[5, 6], [7, 8]]] 1 Plain.XY) 2 2 ∧
    idx2 (orthogonal_slicing [[[1, 2], [3, 4]], [[5, 6], [7, 8]]] 1 Plain.XY) 0 1 =
      idx3 [[[1, 2], [3, 4]], [[5, 6], [7, 8]]] 0 1 1 := by
  have h := (C4_orthogonal_slicing_shapes [[[1, 2], [3, 4]], [[5, 6], [7, 8]]] 2 2 2
    (by constructor <;> decide)).1 1 (by decide)
  exact ⟨h.1, h.2 0 1 (by decide) (by decide)⟩

theorem build_cons_eq (a : Dataset) (l : List Dataset) (rot_k : ℤ) :
    get_ct_model_as_matrix (a :: l) rot_k =
      insert_loop (eff_transform rot_k)
        (shape2 (middle_slice (a :: l)).pixel_array).1
        (shape2 (middle_slice (a :: l)).pixel_array).2
        (a :: l).length (a :: l) 0
        (zeros3 (shape2 (middle_slice (a :: l)).pixel_array).1
          (shape2 (middle_slice (a :: l)).pixel_array).2 (a :: l).length) := by
  by_cases hr : rot_k % 4 = 0
  · have hf : eff_transform rot_k = fun arr => arr := by
      funext arr
      simp [eff_transform, hr]
    rw [hf]
    simp [get_ct_model_as_matrix, hr]
  · have hf : eff_transform rot_k = fun arr => np_rot90 arr rot_k := by
      funext arr
      simp [eff_transform, hr]
    rw [hf]
    simp [get_ct_model_as_matrix, hr]

theorem insert_loop_ok_of_all (f : Mat2 → Mat2) (x y N : ℕ) :
    ∀ (slices : List Dataset) (z : ℕ) (m : Mat3),
      (∀ d ∈ slices, bcast_ok (shape2 (f d.pixel_array)) (x, y)) →
      ∃ m', insert_loop f x y N slices z m = .ok m' := by
  intro slices
  induction slices with
  | nil => exact fun z m _ => ⟨m, rfl⟩
  | cons d rest ih =>
    intro z m hall
    have hd := hall d (List.mem_cons_self d rest)
    simp only [insert_loop]
    rw [if_pos hd]
    exact ih (z + 1) _ (fun e he => hall e (List.mem_cons_of_mem d he))

theorem insert_loop_err_of_exists (f : Mat2 → Mat2) (x y N : ℕ) :
    ∀ (slices : List Dataset) (z : ℕ) (m : Mat3),
      (∃ d ∈ slices, ¬ bcast_ok (shape2 (f d.pixel_array)) (x, y)) →
      insert_loop f x y N slices z m = .error .valueError := by
  intro slices
  induction slices with
  | nil =>
    rintro z m ⟨d, hd, -⟩
    cases hd
  | cons d rest ih =>
    rintro z m ⟨e, he, hbad⟩
    by_cases hd : bcast_ok (shape2 (f d.pixel_array)) (x, y)
    · simp only [insert_loop]
      rw [if_pos hd]
      apply ih
      rcases List.mem_cons.mp he with rfl | hrest
      · exact absurd hd hbad
      · exact ⟨e, hrest, hbad⟩
    · simp only [insert_loop]
      rw [if_neg hd]

/-- C2 counterexample: the claim says building from slices of mismatched
shapes fails.  The code has no shape check: a slice whose shape is
broadcast-compatible with the middle slice's shape is silently broadcast by
the numpy assignment.  Here a `1×2` slice is stacked with a `2×2` slice (the
middle slice of the two), the shapes differ, yet the build succeeds, with the
`1×2` slice's row replicated across the `x` extent. -/
theorem C2_mismatched_shapes_can_succeed :
    get_ct_model_as_matrix [mkDS [[7, 8]], mkDS [[1, 2], [3, 4]]] 0 =
      .ok [[[7, 1], [8, 2]], [[7, 3], [8, 4]]] := by
  rfl

/-- C2 amended: on an empty stack the subscript `dcm_files[z_size // 2]`
raises a (generic) index error; on a non-empty stack the build succeeds
exactly when every slice's (rotated) array is broadcast-compatible with the
middle slice's in-plane shape, and otherwise the numpy assignment raises a
(generic) value error.  No dedicated `EmptyInputError` / `InconsistentShapeError`
exists, and broadcast-compatible shape mismatches are accepted silently. -/
theorem C2_build_failure_modes :
    (∀ rot_k : ℤ, get_ct_model_as_matrix [] rot_k = .error .indexError) ∧
    (∀ (dcm_files : List Dataset) (rot_k : ℤ), dcm_files ≠ [] →
      ((∃ m, get_ct_model_as_matrix dcm_files rot_k = .ok m) ↔
        ∀ d ∈ dcm_files, bcast_ok (shape2 (slice_eff rot_k d))
          (shape2 (middle_slice dcm_files).pixel_array)) ∧
      ((∃ d ∈ dcm_files, ¬ bcast_ok (shape2 (slice_eff rot_k d))
          (shape2 (middle_slice dcm_files).pixel_array)) →
        get_ct_model_as_matrix dcm_files rot_k = .error .valueError)) := by
  constructor
  · intro rot_k
    rfl
  · intro files rot_k hne
    obtain ⟨a, l, rfl⟩ : ∃ a l, files = a :: l := by
      cases files with
      | nil => exact absurd rfl hne
      | cons a l => exact ⟨a, l, rfl⟩
    constructor
    · constructor
      · rintro ⟨mm, hmm⟩
        by_contra hnot
        push_neg at hnot
        obtain ⟨d, hd, hbad⟩ := hnot
        rw [build_cons_eq] at hmm
        have hbad' : ¬ bcast_ok (shape2 (slice_eff rot_k d))
            ((shape2 (middle_slice (a :: l)).pixel_array).1,
              (shape2 (middle_slice (a :: l)).pixel_array).2) := by
          rw [Prod.mk.eta]
          exact hbad
        rw [insert_loop_err_of_exists (eff_transform rot_k)
          (shape2 (middle_slice (a :: l)).pixel_array).1
          (shape2 (middle_slice (a :: l)).pixel_array).2
          (a :: l).length (a :: l) 0 _ ⟨d, hd, hbad'⟩] at hmm
        cases hmm
      · intro hall
        rw [build_cons_eq]
        refine insert_loop_ok_of_all _ _ _ _ (a :: l) 0 _ (fun d hd => ?_)
        rw [Prod.mk.eta]
        exact hall d hd
    · rintro ⟨d, hd, hbad⟩
      rw [build_cons_eq]
      refine insert_loop_err_of_exists _ _ _ _ (a :: l) 0 _ ⟨d, hd, ?_⟩
      rw [Prod.mk.eta]
      exact hbad

theorem C2_build_failure_modes_witness :
    get_ct_model_as_matrix [mkDS [[1, 2], [3, 4]], mkDS [[5]]] 0 = .error .valueError := by
  exact (C2_build_failure_modes.2 [mkDS [[1, 2], [3, 4]], mkDS [[5]]] 0 (by simp)).2
    ⟨mkDS [[1, 2], [3, 4]], by simp, by decide⟩

theorem set_z_plane_length (src : Mat2) (idx x : ℕ) :
    ∀ (y : ℕ) (cols : List (List ℚ)), (set_z_plane src idx x y cols).length = cols.length := by
  intro y cols
  induction cols generalizing y with
  | nil => rfl
  | cons c cs ih => simp [set_z_plane, ih]

theorem set_z_plane_mem_length (src : Mat2) (idx x nz : ℕ) :
    ∀ (y : ℕ) (cols : List (List ℚ)), (∀ c ∈ cols, c.length = nz) →
      ∀ c' ∈ set_z_plane src idx x y cols, c'.length = nz := by
  intro y cols
  induction cols generalizing y with
  | nil =>
    intro _ c' hc'
    cases hc'
  | cons c cs ih =>
    intro hall c' hc'
    rcases List.mem_cons.mp hc' with rfl | hmem
    · rw [List.length_set]
      exact hall c (List.mem_cons_self c cs)
    · exact ih (y + 1) (fun e he => hall e (List.mem_cons_of_mem c he)) c' hmem

theorem set_z_go_length (src : Mat2) (idx : ℕ) :
    ∀ (x : ℕ) (m : Mat3), (set_z_go src idx x m).length = m.length := by
  intro x m
  induction m generalizing x with
  | nil => rfl
  | cons p ps ih => simp [set_z_go, ih]

theorem rect3_set_z (m : Mat3) (nx ny nz idx : ℕ) (src : Mat2) (h : rect3 m nx ny nz) :
    rect3 (set_z m idx src) nx ny nz := by
  obtain ⟨hlen, hmem⟩ := h
  refine ⟨by rw [set_z, set_z_go_length, hlen], ?_⟩
  suffices haux : ∀ (x : ℕ) (mm : Mat3), (∀ p ∈ mm, p.length = ny ∧ ∀ c ∈ p, c.length = nz) →
      ∀ p' ∈ set_z_go src idx x mm, p'.length = ny ∧ ∀ c ∈ p', c.length = nz by
    exact haux 0 m hmem
  intro x mm
  induction mm generalizing x with
  | nil =>
    intro _ p' hp'
    cases hp'
  | cons p ps ih =>
    intro hall p' hp'
    rcases List.mem_cons.mp hp' with rfl | hmem'
    · have hp := hall p (List.mem_cons_self p ps)
      constructor
      · rw [set_z_plane_length, hp.1]
      · exact set_z_plane_mem_length src idx x nz 0 p hp.2
    · exact ih (x + 1) (fun e he => hall e (List.mem_cons_of_mem p he)) p' hmem'

theorem rect3_zeros3 (x y z : ℕ) : rect3 (zeros3 x y z) x y z := by
  refine ⟨List.length_replicate x _, fun p hp => ?_⟩
  rw [(List.mem_replicate.mp hp).2]
  refine ⟨List.length_replicate y _, fun c hc => ?_⟩
  rw [(List.mem_replicate.mp hc).2]
  exact List.length_replicate z _

theorem insert_loop_rect (f : Mat2 → Mat2) (x y N : ℕ) :
    ∀ (slices : List Dataset) (z : ℕ) (m m' : Mat3), rect3 m x y N →
      insert_loop f x y N slices z m = .ok m' → rect3 m' x y N := by
  intro slices
  induction slices with
  | nil =>
    intro z m m' hm heq
    cases heq
    exact hm
  | cons d rest ih =>
    intro z m m' hm heq
    by_cases hd : bcast_ok (shape2 (f d.pixel_array)) (x, y)
    · simp only [insert_loop] at heq
      rw [if_pos hd] at heq
      exact ih (z + 1) _ m' (rect3_set_z _ _ _ _ _ _ hm) heq
    · simp only [insert_loop] at heq
      rw [if_neg hd] at heq
      cases heq

/-- C10: the volume's in-plane dimensions and all per-series metadata are read
exclusively from the slice at index `N // 2` of the stack: every successfully
built volume is an `x_size × y_size × N` grid with `(x_size, y_size)` the shape
of the middle slice's pixel array, and two stacks of equal length that agree on
their middle slice produce identical thickness/spacing/patient/examination
data, whatever their other slices (in particular their first slices) hold. -/
theorem C10_series_data_from_middle_slice :
    (∀ (dcm_files : List Dataset) (rot_k : ℤ) (m : Mat3),
      get_ct_model_as_matrix dcm_files rot_k = .ok m →
      rect3 m (shape2 (middle_slice dcm_files).pixel_array).1
        (shape2 (middle_slice dcm_files).pixel_array).2 dcm_files.length) ∧
    (∀ s1 s2 : List Dataset, s1.length = s2.length → middle_slice s1 = middle_slice s2 →
      model_preset_series_data s1 = model_preset_series_data s2) := by
  constructor
  · intro files rot_k m hok
    cases files with
    | nil => cases hok
    | cons a l =>
      rw [build_cons_eq] at hok
      exact insert_loop_rect _ _ _ _ (a :: l) 0 _ m (rect3_zeros3 _ _ _) hok
  · intro s1 s2 hlen hmid
    simp [model_preset_series_data, hmid]

theorem C10_series_data_from_middle_slice_witness :
    model_preset_series_data [mkDS [[1]], mkDS [[2]], mkDS [[3]]] =
      model_preset_series_data [mkDS [[9]], mkDS [[2]], mkDS [[7]]] ∧
    rect3 [[[1]]] 1 1 1 := by
  constructor
  · exact C10_series_data_from_middle_slice.2 [mkDS [[1]], mkDS [[2]], mkDS [[3]]]
      [mkDS [[9]], mkDS [[2]], mkDS [[7]]] rfl rfl
  · exact C10_series_data_from_middle_slice.1 [mkDS [[1]]] 0 [[[1]]] rfl

/-- C9: the ROI footprint memoization key `prev_roi_pix_size` is `(0, 0)` at
construction, is preserved by every other state operation — in particular by
the whole per-projection volume-load preset — and is reassigned only by an ROI
update whose footprint differs from the stored one.  Consequently the first
ROI update after a reload whose footprint equals the footprint recorded before
the reload skips the area computation, leaving the `Area` entry at the reset
default `""`. -/
theorem C9_prev_roi_footprint_lifecycle :
    (∀ (p : Option Plain) (a : Option String),
      (ProjectionModel.init p a).prev_roi_pix_size = (0, 0)) ∧
    (∀ (pm : ProjectionModel) (w h d : ℕ) (c r t : ℚ) (label : String)
        (o : List (String × String)),
      (load_preset pm w h d c r t label o).prev_roi_pix_size = pm.prev_roi_pix_size) ∧
    (∀ (pm : ProjectionModel) (w h d : ℕ),
      (pm.set_shape w h d).prev_roi_pix_size = pm.prev_roi_pix_size) ∧
    (∀ (pm : ProjectionModel) (c r t : ℚ),
      (pm.set_spacings c r t).prev_roi_pix_size = pm.prev_roi_pix_size) ∧
    (∀ (pm : ProjectionModel) (img : Mat2) (n : ℕ),
      (pm.set_current_slice img n).prev_roi_pix_size = pm.prev_roi_pix_size) ∧
    (∀ (pm : ProjectionModel) (md : List (String × String)),
      (pm.set_img_metadata md).prev_roi_pix_size = pm.prev_roi_pix_size) ∧
    (∀ (pm : ProjectionModel) (md : List (String × String)),
      (pm.update_img_metadata md).prev_roi_pix_size = pm.prev_roi_pix_size) ∧
    (∀ (pm : ProjectionModel) (md : List (String × String)),
      (pm.set_roi_metadata md).prev_roi_pix_size = pm.prev_roi_pix_size) ∧
    (∀ (pm : ProjectionModel) (md : List (String × String)),
      (pm.update_roi_metadata md).prev_roi_pix_size = pm.prev_roi_pix_size) ∧
    (∀ (pm : ProjectionModel) (rm : Mat2) (ms ss : String),
      shape2 rm = pm.prev_roi_pix_size →
      (roi_changed pm rm ms ss).prev_roi_pix_size = pm.prev_roi_pix_size) ∧
    (∀ (pm : ProjectionModel) (rm : Mat2) (ms ss : String),
      shape2 rm ≠ pm.prev_roi_pix_size →
      (roi_changed pm rm ms ss).prev_roi_pix_size = shape2 rm) ∧
    (∀ (pm : ProjectionModel) (w h d : ℕ) (c r t : ℚ) (label : String)
        (o : List (String × String)) (rm : Mat2) (ms ss : String),
      shape2 rm = pm.prev_roi_pix_size →
      dict_get "Area"
        (roi_changed (load_preset pm w h d c r t label o) rm ms ss).roi_metadata
        = some "") := by
  refine ⟨fun _ _ => rfl, fun _ _ _ _ _ _ _ _ _ => rfl, fun _ _ _ _ => rfl,
    fun _ _ _ _ => rfl, fun _ _ _ => rfl, fun _ _ => rfl, fun _ _ => rfl,
    fun _ _ => rfl, fun _ _ => rfl, ?_, ?_, ?_⟩
  · intro pm rm ms ss hfp
    have hc : ¬¬(((shape2 rm).1, (shape2 rm).2) = pm.prev_roi_pix_size) := by
      rw [Prod.mk.eta]
      exact not_not_intro hfp
    simp only [roi_changed]
    rw [if_neg hc]
    rfl
  · intro pm rm ms ss hfp
    have hc : ¬(((shape2 rm).1, (shape2 rm).2) = pm.prev_roi_pix_size) := by
      rw [Prod.mk.eta]
      exact hfp
    simp only [roi_changed]
    rw [if_pos hc]
    exact Prod.mk.eta
  · intro pm w h d c r t label o rm ms ss hfp
    have hc : ¬¬(((shape2 rm).1, (shape2 rm).2) =
        (load_preset pm w h d c r t label o).prev_roi_pix_size) := by
      rw [Prod.mk.eta]
      exact not_not_intro hfp
    simp only [roi_changed]
    rw [if_neg hc]
    show dict_get "Area"
        (dict_set "Std Dev" ss (dict_set "Mean" ms [("Area", ""), ("Mean", ""), ("Std Dev", "")]))
      = some ""
    rw [dict_get_set_ne _ _ _ (by decide), dict_get_set_ne _ _ _ (by decide)]
    rfl

theorem C9_prev_roi_footprint_lifecycle_witness :
    dict_get "Area" (roi_changed
      (load_preset (ProjectionModel.init none none) 4 4 4 1 1 1 "Axial" [("up", "P")])
      [] "0.00" "0.00").roi_metadata = some "" := by
  exact C9_prev_roi_footprint_lifecycle.2.2.2.2.2.2.2.2.2.2.2
    (ProjectionModel.init none none) 4 4 4 1 1 1 "Axial" [("up", "P")] [] "0.00" "0.00" rfl

theorem dict_get_eq_none (k : String) (d : List (String × String))
    (h : k ∉ d.map Prod.fst) : dict_get k d = none := by
  induction d with
  | nil => rfl
  | cons e rest ih =>
    simp only [List.map_cons, List.mem_cons, not_or] at h
    have h1 : ¬(e.1 = k) := fun he => h.1 he.symm
    simp [dict_get, h1, ih h.2]

theorem dict_get_ne_none (k : String) (d : List (String × String))
    (h : k ∈ d.map Prod.fst) : dict_get k d ≠ none := by
  induction d with
  | nil => cases h
  | cons e rest ih =>
    by_cases h1 : e.1 = k
    · simp [dict_get, h1]
    · simp only [List.map_cons, List.mem_cons] at h
      rcases h with h | h
      · exact absurd h.symm h1
      · simp [dict_get, h1, ih h]

theorem dict_set_of_not_mem (k v : String) (d : List (String × String))
    (h : k ∉ d.map Prod.fst) : dict_set k v d = d ++ [(k, v)] := by
  induction d with
  | nil => rfl
  | cons e rest ih =>
    simp only [List.map_cons, List.mem_cons, not_or] at h
    have h1 : ¬(e.1 = k) := fun he => h.1 he.symm
    simp [dict_set, h1, ih h.2]

theorem dict_set_of_mem (k v : String) (d : List (String × String))
    (hnd : (d.map Prod.fst).Nodup) (h : k ∈ d.map Prod.fst) :
    dict_set k v d = d.map (fun e => if e.1 = k then (k, v) else e) := by
  induction d with
  | nil => cases h
  | cons e rest ih =>
    simp only [List.map_cons, List.nodup_cons] at hnd
    by_cases h1 : e.1 = k
    · have hk : k ∉ rest.map Prod.fst := h1 ▸ hnd.1
      have hrest : rest.map (fun e' => if e'.1 = k then (k, v) else e') = rest := by
        conv_rhs => rw [← List.map_id rest]
        refine List.map_congr_left (fun e' he' => ?_)
        have : e'.1 ≠ k := fun hh => hk (hh ▸ List.mem_map_of_mem Prod.fst he')
        simp [this]
      simp [dict_set, h1, hrest]
    · have hk : k ∈ rest.map Prod.fst := by
        simp only [List.map_cons, List.mem_cons] at h
        rcases h with h | h
        · exact absurd h.symm h1
        · exact h
      simp [dict_set, h1, ih hnd.2 hk]

theorem nodup_keys_dict_set (k v : String) (d : List (String × String))
    (hnd : (d.map Prod.fst).Nodup) : ((dict_set k v d).map Prod.fst).Nodup := by
  by_cases h : k ∈ d.map Prod.fst
  · rw [dict_set_of_mem k v d hnd h, List.map_map]
    have heq : d.map (Prod.fst ∘ fun e => if e.1 = k then (k, v) else e) = d.map Prod.fst := by
      refine List.map_congr_left (fun e he => ?_)
      by_cases h1 : e.1 = k
      · simp [Function.comp, h1]
      · simp [Function.comp, h1]
    rw [heq]
    exact hnd
  · rw [dict_set_of_not_mem k v d h, List.map_append]
    simp [List.nodup_append, hnd, h]

theorem dict_get_append_single_ne (k' k v : String) (d : List (String × String))
    (h : k' ≠ k) : dict_get k' (d ++ [(k, v)]) = dict_get k' d := by
  induction d with
  | nil => simp [dict_get, Ne.symm h]
  | cons e rest ih =>
    by_cases h1 : e.1 = k'
    · simp [dict_get, h1]
    · simp [dict_get, h1, ih]

theorem dict_update_spec (m p : List (String × String))
    (hm : (m.map Prod.fst).Nodup) (hp : (p.map Prod.fst).Nodup) :
    dict_update m p =
      m.map (fun e => (e.1, (dict_get e.1 p).getD e.2)) ++
        p.filter (fun e => (dict_get e.1 m).isNone) := by
  induction p generalizing m with
  | nil => simp [dict_update, dict_get]
  | cons kv rest ih =>
    obtain ⟨k, v⟩ := kv
    simp only [List.map_cons, List.nodup_cons] at hp
    obtain ⟨hk, hrest⟩ := hp
    have step : dict_update m ((k, v) :: rest) = dict_update (dict_set k v m) rest := rfl
    rw [step, ih (dict_set k v m) (nodup_keys_dict_set k v m hm) hrest]
    by_cases hmem : k ∈ m.map Prod.fst
    · have hmap : (dict_set k v m).map (fun e => (e.1, (dict_get e.1 rest).getD e.2)) =
          m.map (fun e => (e.1, (dict_get e.1 ((k, v) :: rest)).getD e.2)) := by
        rw [dict_set_of_mem k v m hm hmem, List.map_map]
        refine List.map_congr_left (fun e he => ?_)
        by_cases h1 : e.1 = k
        · simp only [Function.comp, if_pos h1]
          rw [dict_get_eq_none k rest hk]
          simp [dict_get, h1]
        · simp only [Function.comp, if_neg h1]
          have h2 : ¬(k = e.1) := fun hh => h1 hh.symm
          simp [dict_get, h2]
      have hfilter : rest.filter (fun e => (dict_get e.1 (dict_set k v m)).isNone) =
          ((k, v) :: rest).filter (fun e => (dict_get e.1 m).isNone) := by
        simp only [List.filter_cons]
        rw [if_neg (by simp [Option.isNone_iff_eq_none, dict_get_ne_none k m hmem])]
        refine List.filter_congr (fun e he => ?_)
        by_cases h1 : e.1 = k
        · obtain ⟨w, hw⟩ := Option.ne_none_iff_exists'.mp (dict_get_ne_none k m hmem)
          rw [h1, dict_get_set_self, hw]
          rfl
        · rw [dict_get_set_ne k e.1 v h1 m]
      rw [hmap, hfilter]
    · rw [dict_set_of_not_mem k v m hmem, List.map_append]
      have hmapm : m.map (fun e => (e.1, (dict_get e.1 rest).getD e.2)) =
          m.map (fun e => (e.1, (dict_get e.1 ((k, v) :: rest)).getD e.2)) := by
        refine List.map_congr_left (fun e he => ?_)
        have h1 : ¬(k = e.1) := fun hh => hmem (hh ▸ List.mem_map_of_mem Prod.fst he)
        simp [dict_get, h1]
      have hfilter : rest.filter (fun e => (dict_get e.1 (m ++ [(k, v)])).isNone) =
          rest.filter (fun e => (dict_get e.1 m).isNone) := by
        refine List.filter_congr (fun e he => ?_)
        have h1 : e.1 ≠ k := fun hh => hk (hh ▸ List.mem_map_of_mem Prod.fst he)
        rw [dict_get_append_single_ne e.1 k v m h1]
      rw [hfilter, hmapm]
      have hsingle : [((k : String), (v : String))].map
          (fun e => (e.1, (dict_get e.1 rest).getD e.2)) = [(k, v)] := by
        simp [dict_get_eq_none k rest hk]
      rw [hsingle]
      simp only [List.filter_cons]
      rw [if_pos (by simp [Option.isNone_iff_eq_none, dict_get_eq_none k m hmem])]
      simp

/-- C8: `update_img_metadata` and `update_roi_metadata` merge a partial map
into the held metadata map with insert-or-overwrite semantics and expose the
resulting full map: pre-existing keys keep their position (taking the partial
map's value when present there, their previous value otherwise) and keys that
only occur in the partial map are appended at the end, in order. -/
theorem C8_metadata_update_merge (pm : ProjectionModel) (p : List (String × String))
    (himg : (pm.image_metadata.map Prod.fst).Nodup)
    (hroi : (pm.roi_metadata.map Prod.fst).Nodup)
    (hp : (p.map Prod.fst).Nodup) :
    (pm.update_img_metadata p).image_metadata =
      pm.image_metadata.map (fun e => (e.1, (dict_get e.1 p).getD e.2)) ++
        p.filter (fun e => (dict_get e.1 pm.image_metadata).isNone) ∧
    (pm.update_roi_metadata p).roi_metadata =
      pm.roi_metadata.map (fun e => (e.1, (dict_get e.1 p).getD e.2)) ++
        p.filter (fun e => (dict_get e.1 pm.roi_metadata).isNone) :=
  ⟨dict_update_spec pm.image_metadata p himg hp,
   dict_update_spec pm.roi_metadata p hroi hp⟩

theorem C8_metadata_update_merge_witness :
    (((ProjectionModel.init none none).set_img_metadata
        [("a", "1"), ("b", "2")]).update_img_metadata
      [("b", "9"), ("c", "3")]).image_metadata = [("a", "1"), ("b", "9"), ("c", "3")] := by
  have h := (C8_metadata_update_merge
    ((ProjectionModel.init none none).set_img_metadata [("a", "1"), ("b", "2")])
    [("b", "9"), ("c", "3")] (by decide) (by decide) (by decide)).1
  rw [h]
  decide

end CTVis
